import Mathlib

/-!
Shallow embedding of `src/background.js` of the No-Hooting-Around repository.

The background script keeps five pieces of mutable state (lines 3-7):
`currentSession`, `lastCaptureTime`, `isTracking`, `currentGoal`, `tabHistory`.
We model them as an `AppState` record.  Time (`Date.now()`) is an explicit
`Nat` parameter wherever the script reads the clock.  JavaScript's possibly
`null`/`undefined` URL values are modelled as `Option String`, with the empty
string covering the falsy `""` case.  The per-tab history object is modelled
as a total function `Nat → List String` with default `[]` (an absent key and
an empty array behave identically in every operation of the script).
-/

namespace NoHooting

/-- The `chrome://` scheme tested at lines 84 and 106. -/
def chromeScheme : String := "chrome://"

/-- The `about:` scheme tested at lines 84 and 106. -/
def aboutScheme : String := "about:"

/-- The `"about:blank"` fallback used by the tab-created listener (line 48). -/
def aboutBlankUrl : String := "about:blank"

/-- A session object, `{ tabId, url, sessionId: Date.now() }` (line 112). -/
structure Session where
  tabId : Nat
  url : String
  sessionId : Nat
deriving DecidableEq

/-- The five module-level mutable variables of `background.js` (lines 3-7). -/
structure AppState where
  currentSession : Option Session
  lastCaptureTime : Nat
  isTracking : Bool
  currentGoal : String
  tabHistory : Nat → List String

/-- The initial values of the module-level variables (lines 3-7). -/
def initialState : AppState :=
  { currentSession := none
    lastCaptureTime := 0
    isTracking := false
    currentGoal := ""
    tabHistory := fun _ => [] }

/-- `s.startsWith(pre)` of JavaScript, computed on the character lists. -/
def strStartsWith (s pre : String) : Bool := pre.data.isPrefixOf s.data

/-- Emptiness of a string, computed on the character list. -/
def strIsEmpty (s : String) : Bool := s.data.isEmpty

/-- The guard `!url || url.startsWith("chrome://") || url.startsWith("about:")`
shared by `updateTabHistory` (line 84) and `startSession` (line 106).
`none` models `null`/`undefined`; the empty string is the remaining falsy
string value. -/
def isBlockedUrl : Option String → Bool
  | none => true
  | some u => strIsEmpty u || strStartsWith u chromeScheme || strStartsWith u aboutScheme

/-- `updateTabHistory(tabId, url)` (lines 83-99): ignore blocked URLs, create
the per-tab list on demand, and push `url` only when it differs from the last
recorded entry (`history.length === 0 || history[history.length-1] !== url`). -/
def updateTabHistory (hist : Nat → List String) (tabId : Nat) (url : Option String) :
    Nat → List String :=
  if isBlockedUrl url then hist
  else
    match url with
    | none => hist
    | some u =>
      if (hist tabId).getLast? = some u then hist
      else Function.update hist tabId (hist tabId ++ [u])

/-- `endSession()` (lines 126-131): clears `currentSession`.  The JS guard
`if (currentSession)` only affects logging, so the state effect is the
unconditional reset to `null`. -/
def endSession (s : AppState) : AppState := { s with currentSession := none }

/-- The data held by the `setTimeout` closure created at lines 116-122: the
`tabId` and `url` arguments of `startSession`.  `scheduledSessionId` is ghost
bookkeeping recording the `sessionId` of the session the capture was scheduled
for (equal to the `Date.now()` value of that `startSession` call); the closure
itself does NOT capture it, which is exactly what several claims are about. -/
structure PendingCapture where
  tabId : Nat
  url : String
  scheduledSessionId : Nat
deriving DecidableEq

/-- `startSession(tabId, url)` (lines 102-123): first `endSession()`, then
reject blocked URLs, else install `{ tabId, url, sessionId: Date.now() }` as
the current session and schedule a capture (returned as a `PendingCapture`;
`now` models `Date.now()`). -/
def startSession (s : AppState) (now tabId : Nat) (url : Option String) :
    AppState × Option PendingCapture :=
  let s0 := endSession s
  if isBlockedUrl url then (s0, none)
  else
    match url with
    | none => (s0, none)
    | some u =>
      ({ s0 with currentSession := some { tabId := tabId, url := u, sessionId := now } },
        some { tabId := tabId, url := u, scheduledSessionId := now })

/-- The rate-limit step of `takeScreenshot` (lines 135-141): deny and leave
`lastCaptureTime` unchanged when `now - lastCaptureTime < 1000`, else grant
and set `lastCaptureTime := now`.  Natural-number truncated subtraction agrees
with the JS comparison: whenever `now < lastTime` the JS difference is
negative, hence `< 1000` and denied, and `now - lastTime = 0 < 1000` here too. -/
def tryCapture (lastTime now : Nat) : Bool × Nat :=
  if now - lastTime < 1000 then (false, lastTime) else (true, now)

/-- Outcome of a scheduled capture firing. -/
inductive FireResult where
  | dropped
  | throttled
  | captured (sessionId : Nat)
deriving DecidableEq

/-- The `setTimeout` callback of `startSession` (lines 116-122) combined with
the rate-limit head of `takeScreenshot` (lines 134-141).  The session guard is
`currentSession && currentSession.tabId === tabId` — the `sessionId` is NOT
compared at expiry; when the capture proceeds it carries
`currentSession.sessionId`, i.e. the sessionId of the session current at fire
time (line 118). -/
def timerFire (s : AppState) (p : PendingCapture) (now : Nat) : AppState × FireResult :=
  match s.currentSession with
  | none => (s, FireResult.dropped)
  | some cur =>
    if cur.tabId = p.tabId then
      let g := tryCapture s.lastCaptureTime now
      if g.1 then ({ s with lastCaptureTime := g.2 }, FireResult.captured cur.sessionId)
      else (s, FireResult.throttled)
    else (s, FireResult.dropped)

/-- A JSON scalar as produced by `response.json()` at line 177.  The scoring
endpoint is specified to return a single integer-parseable scalar (or a falsy
value signalling "no score"); JSON numbers are modelled at integer values. -/
inductive JsonValue where
  | jnull
  | jbool (b : Bool)
  | jnum (n : Int)
  | jstr (s : String)
deriving DecidableEq

/-- JavaScript truthiness of a JSON scalar, as tested by `if (data)` at
line 185. -/
def jsTruthy : JsonValue → Bool
  | JsonValue.jnull => false
  | JsonValue.jbool b => b
  | JsonValue.jnum n => n != 0
  | JsonValue.jstr s => !(strIsEmpty s)

def jsonNullText : String := "null"

def jsonTrueText : String := "true"

def jsonFalseText : String := "false"

/-- The string coercion `parseInt` applies to its first argument. -/
def jsToString : JsonValue → String
  | JsonValue.jnull => jsonNullText
  | JsonValue.jbool true => jsonTrueText
  | JsonValue.jbool false => jsonFalseText
  | JsonValue.jnum n => toString n
  | JsonValue.jstr s => s

def isSpaceChar (c : Char) : Bool :=
  c = ' ' || c = '\t' || c = '\n' || c = '\r'

def leadingDigits (cs : List Char) : List Char := cs.takeWhile Char.isDigit

def digitsToNat (ds : List Char) : Nat :=
  ds.foldl (fun a c => a * 10 + (c.toNat - 48)) 0

/-- `parseInt(s, 10)` (line 186): skip leading whitespace, optional sign,
then the longest digit run; `none` models `NaN` (no digits found). -/
def jsParseInt (str : String) : Option Int :=
  match str.data.dropWhile isSpaceChar with
  | '-' :: rest =>
    let ds := leadingDigits rest
    if ds.isEmpty then none else some (-(digitsToNat ds : Int))
  | '+' :: rest =>
    let ds := leadingDigits rest
    if ds.isEmpty then none else some ((digitsToNat ds : Int))
  | cs =>
    let ds := leadingDigits cs
    if ds.isEmpty then none else some ((digitsToNat ds : Int))

/-- The precondition check of `analyzeScreenshotWithOpenAI` (lines 161-165):
abort (returning `false` = request not sent) unless a session is current and
its `sessionId` equals the one passed in.  The function mutates none of the
module-level state, so the state component is returned unchanged. -/
def analyzePre (s : AppState) (sessionId : Nat) : AppState × Bool :=
  match s.currentSession with
  | none => (s, false)
  | some cur => if cur.sessionId = sessionId then (s, true) else (s, false)

/-- The `.then((data) => ...)` response handler of
`analyzeScreenshotWithOpenAI` (lines 178-195): re-check session identity
against the session current at response-arrival time, then
`if (data) { const offTaskScore = parseInt(data, 10);
if (offTaskScore > 70) handleOffTask(currentSession.tabId); }`.
Returns `some tabId` exactly when `handleOffTask` is invoked (the `NaN > 70`
comparison is `false`, modelled by the `none` parse branch).  No module-level
state is mutated on this path. -/
def analyzeResponse (s : AppState) (sessionId : Nat) (data : JsonValue) :
    AppState × Option Nat :=
  match s.currentSession with
  | none => (s, none)
  | some cur =>
    if cur.sessionId = sessionId then
      if jsTruthy data then
        match jsParseInt (jsToString data) with
        | some n => if 70 < n then (s, some cur.tabId) else (s, none)
        | none => (s, none)
      else (s, none)
    else (s, none)

/-- The delayed tab action chosen by `handleOffTask`. -/
inductive TabAction where
  | navigate (url : String)
  | close
deriving DecidableEq

/-- What `handleOffTask` does to a tab: inject the GIF overlay, wait
`delayMs`, then perform `action`. -/
structure InterventionPlan where
  injectFeedback : Bool
  delayMs : Nat
  action : TabAction
deriving DecidableEq

def noUrl : String := ""

/-- `handleOffTask(tabId)` (lines 201-238): if
`tabHistory[tabId] && tabHistory[tabId].length > 1`, inject the GIF and after
2000ms navigate to `tabHistory[tabId][length - 2]`; otherwise inject the GIF
and after 2000ms remove the tab.  (An absent key and an empty array take the
same branch, so the total-function history model is faithful.) -/
def handleOffTask (hist : Nat → List String) (tabId : Nat) : InterventionPlan :=
  let h := hist tabId
  if 1 < h.length then
    { injectFeedback := true, delayMs := 2000,
      action := TabAction.navigate (h.getD (h.length - 2) noUrl) }
  else
    { injectFeedback := true, delayMs := 2000, action := TabAction.close }

/-- The `stopTracking` message branch (lines 16-20): `isTracking = false`
then `endSession()`. -/
def stopTracking (s : AppState) : AppState :=
  endSession { s with isTracking := false }

/-- The events the background script reacts to.  `now` models the value of
`Date.now()` at the moment the handler body runs. -/
inductive Event where
  | msgStartTracking (goal : String)
  | msgStopTracking
  | msgGetState
  | tabUpdated (now tabId : Nat) (complete : Bool) (url : Option String)
  | tabCreated (now tabId : Nat) (url : Option String)
  | tabActivated (now tabId : Nat) (url : Option String)
  | timerExpiry (p : PendingCapture) (now : Nat)
  | apiResponse (sessionId : Nat) (data : JsonValue)
deriving DecidableEq

/-- Externally visible effects emitted by a handler. -/
inductive Action where
  | owl (tabId : Nat)
  | schedule (p : PendingCapture)
  | capture (sessionId : Nat)
  | intervene (tabId : Nat) (plan : InterventionPlan)
deriving DecidableEq

/-- Truthiness of `tab.url` as tested at line 28. -/
def urlTruthy : Option String → Bool
  | none => false
  | some u => !(strIsEmpty u)

/-- `tab.url || "about:blank"` (line 48). -/
def orBlank : Option String → Option String
  | none => some aboutBlankUrl
  | some u => if strIsEmpty u then some aboutBlankUrl else some u

/-- The shared body of the three tab listeners: `updateTabHistory`, then
`startSession`, then the `flyOwl` message (lines 30-40, 48-58, 67-77). -/
def navigationStep (s : AppState) (now tabId : Nat) (url : Option String) :
    AppState × List Action :=
  let s1 := { s with tabHistory := updateTabHistory s.tabHistory tabId url }
  let r := startSession s1 now tabId url
  (r.1, r.2.toList.map Action.schedule ++ [Action.owl tabId])

/-- One dispatch of the event loop: the message listener (lines 10-24), the
three tab listeners (lines 27-80), a scheduled-capture expiry
(lines 116-122 and 134-141) and a classification response (lines 178-195). -/
def step (s : AppState) (e : Event) : AppState × List Action :=
  match e with
  | Event.msgStartTracking g => ({ s with isTracking := true, currentGoal := g }, [])
  | Event.msgStopTracking => (stopTracking s, [])
  | Event.msgGetState => (s, [])
  | Event.tabUpdated now tabId complete url =>
    if s.isTracking && complete && urlTruthy url then navigationStep s now tabId url
    else (s, [])
  | Event.tabCreated now tabId url =>
    if s.isTracking then navigationStep s now tabId (orBlank url) else (s, [])
  | Event.tabActivated now tabId url =>
    if s.isTracking then navigationStep s now tabId url else (s, [])
  | Event.timerExpiry p now =>
    let r := timerFire s p now
    match r.2 with
    | FireResult.captured sid => (r.1, [Action.capture sid])
    | _ => (r.1, [])
  | Event.apiResponse sid data =>
    let r := analyzeResponse s sid data
    match r.2 with
    | some tabId => (r.1, [Action.intervene tabId (handleOffTask r.1.tabHistory tabId)])
    | none => (r.1, [])

/-- Run a sequence of events. -/
def runEvents (s : AppState) : List Event → AppState
  | [] => s
  | e :: es => runEvents (step s e).1 es

/-- Every state observed along a run, the initial one included. -/
def statesAlong (s : AppState) : List Event → List AppState
  | [] => [s]
  | e :: es => s :: statesAlong (step s e).1 es

/-- The sessions current in a state, as a list (for counting). -/
def currentSessions (s : AppState) : List Session := s.currentSession.toList

/-- Fold `updateTabHistory` over a call sequence (`recordVisit` of the spec). -/
def recordVisits (hist : Nat → List String) : List (Nat × Option String) → (Nat → List String)
  | [] => hist
  | c :: rest => recordVisits (updateTabHistory hist c.1 c.2) rest

/-- The times at which a sequence of capture attempts is granted, threading
`lastCaptureTime` through `tryCapture`. -/
def runCaptures (l : Nat) : List Nat → List Nat
  | [] => []
  | t :: ts =>
    let g := tryCapture l t
    if g.1 then t :: runCaptures g.2 ts else runCaptures g.2 ts

/-! ### Concrete fixtures used by counterexamples and witnesses -/

def urlA : String := "https://a.example/"

def urlB : String := "https://b.example/"

def goalText : String := "finish report"

/-- A tracking state with no current session. -/
def trackingIdle : AppState :=
  { currentSession := none
    lastCaptureTime := 0
    isTracking := true
    currentGoal := goalText
    tabHistory := fun _ => [] }

/-- State after `startSession(1, urlA)` at `Date.now() = 1000`. -/
def stateS1 : AppState := (startSession trackingIdle 1000 1 (some urlA)).1

/-- The capture scheduled by that call, for the session with id 1000. -/
def pendingS1 : PendingCapture := { tabId := 1, url := urlA, scheduledSessionId := 1000 }

/-- State after a second `startSession(1, urlB)` on the SAME tab at
`Date.now() = 1500`, before the first capture fired. -/
def stateS2 : AppState := (startSession stateS1 1500 1 (some urlB)).1

/-! ### Helper lemmas about `timerFire` -/

theorem timerFire_none (s : AppState) (p : PendingCapture) (now : Nat)
    (hcur : s.currentSession = none) :
    timerFire s p now = (s, FireResult.dropped) := by
  simp [timerFire, hcur]

theorem timerFire_wrongTab (s : AppState) (cur : Session) (p : PendingCapture) (now : Nat)
    (hcur : s.currentSession = some cur) (htab : cur.tabId ≠ p.tabId) :
    timerFire s p now = (s, FireResult.dropped) := by
  simp [timerFire, hcur, htab]

theorem timerFire_granted (s : AppState) (cur : Session) (p : PendingCapture) (now : Nat)
    (hcur : s.currentSession = some cur) (htab : cur.tabId = p.tabId)
    (hrate : 1000 ≤ now - s.lastCaptureTime) :
    timerFire s p now =
      ({ s with lastCaptureTime := now }, FireResult.captured cur.sessionId) := by
  have hc : ¬(now - s.lastCaptureTime < 1000) := by omega
  simp [timerFire, hcur, htab, tryCapture, hc]

theorem timerFire_throttled (s : AppState) (cur : Session) (p : PendingCapture) (now : Nat)
    (hcur : s.currentSession = some cur) (htab : cur.tabId = p.tabId)
    (hrate : now - s.lastCaptureTime < 1000) :
    timerFire s p now = (s, FireResult.throttled) := by
  simp [timerFire, hcur, htab, tryCapture, hrate]

/-! ### Claims -/

/-- C1, counterexample.  The claim says the scheduled capture is dropped
whenever, at delay-expiry, the current session's `sessionId` differs from the
one it was scheduled for — even on the same tab.  Concretely: session S1
(id 1000) on tab 1 schedules a capture; a second navigation on tab 1 starts
S2 (id 1500); at expiry the current `sessionId` 1500 differs from the
scheduled 1000, yet the capture fires (the expiry guard at line 117 compares
only `tabId`), emerging as `captured 1500`. -/
theorem sameTabReplacementStillCaptures :
    (startSession trackingIdle 1000 1 (some urlA)).2 = some pendingS1 ∧
    stateS2.currentSession = some { tabId := 1, url := urlB, sessionId := 1500 } ∧
    pendingS1.scheduledSessionId = 1000 ∧
    (timerFire stateS2 pendingS1 3000).2 = FireResult.captured 1500 ∧
    (timerFire stateS2 pendingS1 3000).2 ≠ FireResult.dropped := by
  refine ⟨by decide, by decide, rfl, by decide, by decide⟩

/-- C1, amended.  At delay-expiry the capture is dropped if and only if no
session is current or the current session's `tabId` differs from the
scheduled one; the `sessionId` is not compared, and when a session with the
scheduled `tabId` is current (and the rate limit allows), the capture fires
carrying the CURRENT session's `sessionId`. -/
theorem scheduledCaptureDropCondition :
    ∀ (s : AppState) (p : PendingCapture) (now : Nat),
      ((timerFire s p now).2 = FireResult.dropped ↔
        ∀ cur : Session, s.currentSession = some cur → cur.tabId ≠ p.tabId) ∧
      (∀ cur : Session, s.currentSession = some cur → cur.tabId = p.tabId →
        1000 ≤ now - s.lastCaptureTime →
        (timerFire s p now).2 = FireResult.captured cur.sessionId) := by
  intro s p now
  refine ⟨⟨?_, ?_⟩, ?_⟩
  · intro hdrop cur hcur htab
    by_cases hg : now - s.lastCaptureTime < 1000
    · rw [timerFire_throttled s cur p now hcur htab hg] at hdrop
      exact absurd hdrop (by simp)
    · rw [timerFire_granted s cur p now hcur htab (by omega)] at hdrop
      exact absurd hdrop (by simp)
  · intro hall
    cases hcur : s.currentSession with
    | none => rw [timerFire_none s p now hcur]
    | some cur => rw [timerFire_wrongTab s cur p now hcur (hall cur hcur)]
  · intro cur hcur htab hrate
    rw [timerFire_granted s cur p now hcur htab hrate]

/-- C1, witness for the amended theorem: applied to the concrete two-session
run, where the capture fires with the current session's id 1500. -/
theorem scheduledCaptureDropCondition_witness :
    (timerFire stateS2 pendingS1 3000).2 = FireResult.captured 1500 :=
  (scheduledCaptureDropCondition stateS2 pendingS1 3000).2
    { tabId := 1, url := urlB, sessionId := 1500 } (by decide) rfl (by decide)

/-- C2, counterexample.  `sessionId` is `Date.now()` (line 112), so two
accepted `startSession` calls within the same millisecond create two distinct
sessions with EQUAL `sessionId`s, refuting uniqueness. -/
theorem sameMillisecondSessionsShareId :
    ((startSession trackingIdle 1000 1 (some urlA)).1.currentSession =
      some { tabId := 1, url := urlA, sessionId := 1000 }) ∧
    ((startSession (startSession trackingIdle 1000 1 (some urlA)).1 1000 2
        (some urlB)).1.currentSession =
      some { tabId := 2, url := urlB, sessionId := 1000 }) ∧
    ({ tabId := 1, url := urlA, sessionId := 1000 } : Session) ≠
      { tabId := 2, url := urlB, sessionId := 1000 } ∧
    ({ tabId := 1, url := urlA, sessionId := 1000 } : Session).sessionId =
      ({ tabId := 2, url := urlB, sessionId := 1000 } : Session).sessionId := by
  refine ⟨by decide, by decide, by decide, rfl⟩

/-- C2, amended.  Every accepted `startSession` call installs a session whose
`sessionId` equals the clock reading of that call; consequently sessionIds
are non-decreasing in creation order, and sessions created at strictly
increasing clock readings get distinct ids — but calls within the same
millisecond share an id. -/
theorem sessionIdIsCreationTime :
    (∀ (s : AppState) (now tabId : Nat) (url : Option String) (sess : Session),
      (startSession s now tabId url).1.currentSession = some sess →
      sess.sessionId = now) ∧
    (∀ (s1 s2 : AppState) (n1 n2 t1 t2 : Nat) (u1 u2 : Option String)
        (x1 x2 : Session),
      (startSession s1 n1 t1 u1).1.currentSession = some x1 →
      (startSession s2 n2 t2 u2).1.currentSession = some x2 →
      (n1 ≤ n2 → x1.sessionId ≤ x2.sessionId) ∧
      (n1 < n2 → x1.sessionId ≠ x2.sessionId)) := by
  have key : ∀ (s : AppState) (now tabId : Nat) (url : Option String) (sess : Session),
      (startSession s now tabId url).1.currentSession = some sess →
      sess.sessionId = now := by
    intro s now tabId url sess h
    by_cases hb : isBlockedUrl url = true
    · simp [startSession, hb, endSession] at h
    · rcases url with _ | u
      · exact absurd rfl hb
      · simp only [startSession, hb, if_false, endSession, Option.some.injEq,
          Bool.false_eq_true, if_neg] at h
        rw [← h]
  refine ⟨key, ?_⟩
  intro s1 s2 n1 n2 t1 t2 u1 u2 x1 x2 h1 h2
  have e1 := key s1 n1 t1 u1 x1 h1
  have e2 := key s2 n2 t2 u2 x2 h2
  constructor <;> intro hle <;> omega

/-- C2, witness for the amended theorem, at the concrete two-session run:
both sessions carry their creation times. -/
theorem sessionIdIsCreationTime_witness :
    ({ tabId := 1, url := urlA, sessionId := 1000 } : Session).sessionId = 1000 ∧
    ({ tabId := 1, url := urlB, sessionId := 1500 } : Session).sessionId = 1500 :=
  ⟨sessionIdIsCreationTime.1 trackingIdle 1000 1 (some urlA) _ (by decide),
   sessionIdIsCreationTime.1 stateS1 1500 1 (some urlB) _ (by decide)⟩

/-- C3.  At most one session is current at every observation point: every
state holds at most one current session; `startSession` factors through
`endSession` (Active→Idle→Active in one synchronous step); and along any run
of handler dispatches every observed state has at most one current session. -/
theorem atMostOneCurrentSession :
    (∀ s : AppState, (currentSessions s).length ≤ 1) ∧
    (∀ (s : AppState) (now tabId : Nat) (url : Option String),
      startSession s now tabId url = startSession (endSession s) now tabId url) ∧
    (∀ (s0 : AppState) (evs : List Event),
      (statesAlong s0 evs).Forall (fun s => (currentSessions s).length ≤ 1)) := by
  have hlen : ∀ s : AppState, (currentSessions s).length ≤ 1 := by
    intro s
    rcases hc : s.currentSession with _ | cur <;> simp [currentSessions, hc]
  refine ⟨hlen, ?_, ?_⟩
  · intro s now tabId url
    rfl
  · intro s0 evs
    induction evs generalizing s0 with
    | nil => exact hlen s0
    | cons e es ih =>
      rw [statesAlong, List.forall_cons]
      exact ⟨hlen s0, ih (step s0 e).1⟩

/-! ### Helper lemmas for the history ledger -/

theorem chain_ne_updateTabHistory (hist : Nat → List String) (tabId : Nat)
    (url : Option String) (h : ∀ a, List.Chain' Ne (hist a)) :
    ∀ a, List.Chain' Ne (updateTabHistory hist tabId url a) := by
  intro a
  by_cases hb : isBlockedUrl url = true
  · simpa [updateTabHistory, hb] using h a
  · rcases url with _ | u
    · exact absurd rfl hb
    · by_cases hl : (hist tabId).getLast? = some u
      · simpa [updateTabHistory, hb, hl] using h a
      · have hu : updateTabHistory hist tabId (some u) =
            Function.update hist tabId (hist tabId ++ [u]) := by
          simp [updateTabHistory, hb, hl]
        rw [hu]
        by_cases ha : a = tabId
        · subst ha
          rw [Function.update_same]
          rw [List.chain'_append]
          refine ⟨h a, List.chain'_singleton u, ?_⟩
          intro x hx y hy
          simp only [List.head?_cons, Option.mem_def, Option.some.injEq] at hy
          subst hy
          intro e
          rw [Option.mem_def] at hx
          rw [e] at hx
          exact hl hx
        · rw [Function.update_noteq ha]
          exact h a

theorem chain_ne_recordVisits (calls : List (Nat × Option String)) :
    ∀ (hist : Nat → List String), (∀ a, List.Chain' Ne (hist a)) →
    ∀ a, List.Chain' Ne (recordVisits hist calls a) := by
  induction calls with
  | nil => intro hist h a; exact h a
  | cons c rest ih =>
    intro hist h a
    exact ih _ (chain_ne_updateTabHistory hist c.1 c.2 h) a

/-- C4.  Any sequence of `recordVisit` calls (arbitrary tabIds and URLs,
including `null`/empty/restricted ones) leaves every tab's history free of
consecutive duplicates; a visit equal to the last recorded entry, and any
blocked URL, leave the ledger unchanged. -/
theorem historyNeverRepeatsConsecutively :
    (∀ (calls : List (Nat × Option String)) (t : Nat),
      List.Chain' Ne (recordVisits (fun _ => []) calls t)) ∧
    (∀ (hist : Nat → List String) (t : Nat) (u : String),
      (hist t).getLast? = some u → updateTabHistory hist t (some u) = hist) ∧
    (∀ (hist : Nat → List String) (t : Nat) (url : Option String),
      isBlockedUrl url = true → updateTabHistory hist t url = hist) := by
  refine ⟨?_, ?_, ?_⟩
  · intro calls t
    exact chain_ne_recordVisits calls (fun _ => []) (fun a => List.chain'_nil) t
  · intro hist t u hl
    by_cases hb : isBlockedUrl (some u) = true
    · simp [updateTabHistory, hb]
    · simp [updateTabHistory, hb, hl]
  · intro hist t url hb
    simp [updateTabHistory, hb]

/-- A one-tab ledger fixture. -/
def historyOne : Nat → List String := fun a => if a = 1 then [urlA] else []

/-- C4, witness: a repeated visit and a blocked visit leave the concrete
ledger untouched. -/
theorem historyNeverRepeatsConsecutively_witness :
    updateTabHistory historyOne 1 (some urlA) = historyOne ∧
    updateTabHistory historyOne 2 none = historyOne :=
  ⟨historyNeverRepeatsConsecutively.2.1 historyOne 1 urlA (by decide),
   historyNeverRepeatsConsecutively.2.2 historyOne 2 none (by decide)⟩

theorem getD_secondToLast (pre : List String) (x y d : String) :
    (pre ++ [x, y]).getD ((pre ++ [x, y]).length - 2) d = x := by
  induction pre with
  | nil => rfl
  | cons a rest ih =>
    rw [List.cons_append]
    have h1 : (a :: (rest ++ [x, y])).length - 2 = ((rest ++ [x, y]).length - 2) + 1 := by
      simp only [List.length_cons, List.length_append, List.length_nil]
      omega
    rw [h1, List.getD_cons_succ]
    exact ih

/-- C5.  `handleOffTask` always injects the visual feedback and always waits
2000ms; with at least two history entries it navigates to the second-to-last
entry (and does not close), with at most one entry it closes the tab (and
does not navigate). -/
theorem interventionRedirectOrClose :
    ∀ (hist : Nat → List String) (tabId : Nat),
      ((handleOffTask hist tabId).injectFeedback = true ∧
        (handleOffTask hist tabId).delayMs = 2000) ∧
      (∀ (pre : List String) (x y : String), hist tabId = pre ++ [x, y] →
        (handleOffTask hist tabId).action = TabAction.navigate x) ∧
      ((hist tabId).length ≤ 1 →
        (handleOffTask hist tabId).action = TabAction.close) := by
  intro hist tabId
  refine ⟨?_, ?_, ?_⟩
  · simp only [handleOffTask]
    split <;> exact ⟨rfl, rfl⟩
  · intro pre x y he
    have hlen : 1 < (hist tabId).length := by
      rw [he]; simp
    simp only [handleOffTask]
    rw [if_pos hlen]
    show TabAction.navigate _ = TabAction.navigate x
    rw [he, getD_secondToLast]
  · intro hlen1
    simp only [handleOffTask]
    rw [if_neg (by omega)]

/-- A two-entry and an empty ledger fixture. -/
def historyTwo : Nat → List String := fun a => if a = 1 then [urlA, urlB] else []

/-- C5, witness: with history `[urlA, urlB]` the tab is sent back to `urlA`;
with empty history the tab is closed. -/
theorem interventionRedirectOrClose_witness :
    (handleOffTask historyTwo 1).action = TabAction.navigate urlA ∧
    (handleOffTask historyTwo 2).action = TabAction.close :=
  ⟨(interventionRedirectOrClose historyTwo 1).2.1 [] urlA urlB (by decide),
   (interventionRedirectOrClose historyTwo 2).2.2 (by decide)⟩

/-- Falsy response values never parse above the threshold: they are `null`,
`false`, `0` or the empty string, whose `parseInt` image is `NaN`, `NaN`,
`0` and `NaN` respectively. -/
theorem falsy_parses_low (data : JsonValue) (hf : jsTruthy data = false) :
    ∀ n : Int, jsParseInt (jsToString data) = some n → n ≤ 70 := by
  intro n hn
  rcases data with _ | b | m | str
  · have h0 : jsParseInt (jsToString JsonValue.jnull) = none := by decide
    rw [h0] at hn
    cases hn
  · cases b with
    | false =>
      have h0 : jsParseInt (jsToString (JsonValue.jbool false)) = none := by decide
      rw [h0] at hn
      cases hn
    | true => simp [jsTruthy] at hf
  · have hm : m = 0 := by simpa [jsTruthy] using hf
    subst hm
    have h0 : jsParseInt (jsToString (JsonValue.jnum 0)) = some 0 := by decide
    rw [h0] at hn
    injection hn with e
    omega
  · have hs : str.data = [] := by
      simpa [jsTruthy, strIsEmpty, List.isEmpty_iff] using hf
    have h0 : jsParseInt (jsToString (JsonValue.jstr str)) = none := by
      simp [jsParseInt, jsToString, hs, leadingDigits]
    rw [h0] at hn
    cases hn

/-- C6.  With a still-valid session, `handleOffTask` is invoked with the
session's tabId if and only if the response, under `parseInt` semantics,
yields an integer strictly above 70; any parse at or below 70, and any
non-parsing response, leaves the pair `(state, none)` — no intervention (and
hence no navigation, closure or feedback from this path) and no state
change. -/
theorem offTaskThresholdGate :
    ∀ (s : AppState) (cur : Session) (sid : Nat) (data : JsonValue),
      s.currentSession = some cur → cur.sessionId = sid →
      ((analyzeResponse s sid data = (s, some cur.tabId)) ↔
        (∃ n : Int, jsParseInt (jsToString data) = some n ∧ 70 < n)) ∧
      ((∀ n : Int, jsParseInt (jsToString data) = some n → n ≤ 70) →
        analyzeResponse s sid data = (s, none)) := by
  intro s cur sid data hcur hsid
  constructor
  · constructor
    · intro h
      by_cases ht : jsTruthy data = true
      · cases hp : jsParseInt (jsToString data) with
        | none =>
          have h0 : analyzeResponse s sid data = (s, none) := by
            simp [analyzeResponse, hcur, hsid, ht, hp]
          rw [h0] at h
          simp at h
        | some n =>
          by_cases hgt : 70 < n
          · exact ⟨n, rfl, hgt⟩


          · have h0 : analyzeResponse s sid data = (s, none) := by
              simp [analyzeResponse, hcur, hsid, ht, hp, hgt]
            rw [h0] at h
            simp at h
      · have hf : jsTruthy data = false := by simpa using ht
        have h0 : analyzeResponse s sid data = (s, none) := by
          simp [analyzeResponse, hcur, hsid, hf]
        rw [h0] at h
        simp at h
    · rintro ⟨n, hp, hgt⟩
      have ht : jsTruthy data = true := by
        cases hf : jsTruthy data
        · exact absurd (falsy_parses_low data hf n hp) (by omega)
        · rfl
      simp [analyzeResponse, hcur, hsid, ht, hp, hgt]
  · intro hlow
    by_cases ht : jsTruthy data = true
    · cases hp : jsParseInt (jsToString data) with
      | none => simp [analyzeResponse, hcur, hsid, ht, hp]
      | some n =>
        have hng : ¬(70 < n) := by
          have := hlow n hp
          omega
        simp [analyzeResponse, hcur, hsid, ht, hp, hng]
    · have hf : jsTruthy data = false := by simpa using ht
      simp [analyzeResponse, hcur, hsid, hf]

/-- A state with a live session (tab 1, id 5). -/
def liveState : AppState :=
  { currentSession := some { tabId := 1, url := urlA, sessionId := 5 }
    lastCaptureTime := 0
    isTracking := true
    currentGoal := goalText
    tabHistory := fun _ => [] }

/-- C6, witness: score 85 triggers the engine on tab 1, score 40 does not. -/
theorem offTaskThresholdGate_witness :
    analyzeResponse liveState 5 (JsonValue.jnum 85) = (liveState, some 1) ∧
    analyzeResponse liveState 5 (JsonValue.jnum 40) = (liveState, none) := by
  constructor
  · exact (offTaskThresholdGate liveState { tabId := 1, url := urlA, sessionId := 5 }
      5 (JsonValue.jnum 85) rfl rfl).1.mpr ⟨85, by decide, by decide⟩
  · refine (offTaskThresholdGate liveState { tabId := 1, url := urlA, sessionId := 5 }
      5 (JsonValue.jnum 40) rfl rfl).2 ?_
    intro n hn
    have h0 : jsParseInt (jsToString (JsonValue.jnum 40)) = some 40 := by decide
    rw [h0] at hn
    injection hn with e
    omega

theorem runCaptures_head (ts : List Nat) :
    ∀ (l t : Nat), (runCaptures l ts).head? = some t → l + 1000 ≤ t := by
  induction ts with
  | nil =>
    intro l t h
    simp [runCaptures] at h
  | cons t0 rest ih =>
    intro l t h
    by_cases hc : t0 - l < 1000
    · simp [runCaptures, tryCapture, hc] at h
      exact ih l t h
    · simp [runCaptures, tryCapture, hc] at h
      omega

theorem runCaptures_chain (ts : List Nat) :
    ∀ l : Nat, List.Chain' (fun a b => a + 1000 ≤ b) (runCaptures l ts) := by
  induction ts with
  | nil => intro l; simp [runCaptures]
  | cons t0 rest ih =>
    intro l
    by_cases hc : t0 - l < 1000
    · have h0 : runCaptures l (t0 :: rest) = runCaptures l rest := by
        simp [runCaptures, tryCapture, hc]
      rw [h0]
      exact ih l
    · have h0 : runCaptures l (t0 :: rest) = t0 :: runCaptures t0 rest := by
        simp [runCaptures, tryCapture, hc]
      rw [h0, List.chain'_cons']
      exact ⟨fun y hy => runCaptures_head rest t0 y (Option.mem_def.mp hy), ih t0⟩

/-- C7.  After a granted capture at `t1`, an attempt at `t2` with
`t2 - t1 < 1000` is denied and leaves `lastCaptureTime` at `t1`, while an
attempt with `t2 - t1 ≥ 1000` is granted and moves it to `t2`; consequently,
over any sequence of attempts, consecutive granted capture times are at least
1000ms apart. -/
theorem captureRateLimit :
    (∀ l0 t1 t2 : Nat, t1 < t2 → (tryCapture l0 t1).1 = true →
      ((t2 - t1 < 1000 → tryCapture (tryCapture l0 t1).2 t2 = (false, t1)) ∧
       (1000 ≤ t2 - t1 → tryCapture (tryCapture l0 t1).2 t2 = (true, t2)))) ∧
    (∀ (l : Nat) (ts : List Nat),
      List.Chain' (fun a b => a + 1000 ≤ b) (runCaptures l ts)) := by
  constructor
  · intro l0 t1 t2 _ hg
    have h2 : (tryCapture l0 t1).2 = t1 := by
      by_cases hc : t1 - l0 < 1000
      · simp [tryCapture, hc] at hg
      · simp [tryCapture, hc]
    rw [h2]
    constructor
    · intro hlt
      simp [tryCapture, hlt]
    · intro hge
      have hn : ¬(t2 - t1 < 1000) := by omega
      simp [tryCapture, hn]
  · intro l ts
    exact runCaptures_chain ts l

/-- C7, witness: a grant at 1000 (from `lastCaptureTime = 0`), then a denial
at 1500 leaving the throttle at 1000, and a grant at 2500 moving it there. -/
theorem captureRateLimit_witness :
    tryCapture (tryCapture 0 1000).2 1500 = (false, 1000) ∧
    tryCapture (tryCapture 0 1000).2 2500 = (true, 2500) :=
  ⟨(captureRateLimit.1 0 1000 1500 (by decide) (by decide)).1 (by decide),
   (captureRateLimit.1 0 1000 2500 (by decide) (by decide)).2 (by decide)⟩

/-- C8.  If no session is current, or the current session's id differs from
the one passed in, the classification client aborts before sending (`false` =
request not sent) with the state returned untouched; the identical check at
response-arrival time discards the result (`none` = no intervention) with the
state again untouched. -/
theorem staleSessionAborts :
    ∀ (s : AppState) (sid : Nat) (data : JsonValue),
      (s.currentSession = none ∨
        ∃ cur : Session, s.currentSession = some cur ∧ cur.sessionId ≠ sid) →
      analyzePre s sid = (s, false) ∧ analyzeResponse s sid data = (s, none) := by
  intro s sid data h
  rcases h with hnone | ⟨cur, hcur, hne⟩
  · exact ⟨by simp [analyzePre, hnone], by simp [analyzeResponse, hnone]⟩
  · exact ⟨by simp [analyzePre, hcur, hne], by simp [analyzeResponse, hcur, hne]⟩

/-- C8, witness: session id 5 is current but id 99 is checked — both phases
discard with no state change. -/
theorem staleSessionAborts_witness :
    analyzePre liveState 99 = (liveState, false) ∧
    analyzeResponse liveState 99 (JsonValue.jnum 85) = (liveState, none) :=
  staleSessionAborts liveState 99 (JsonValue.jnum 85)
    (Or.inr ⟨{ tabId := 1, url := urlA, sessionId := 5 }, rfl, by decide⟩)

/-- Does an event carry the `startTracking` command? -/
def isStartTrackingMsg : Event → Bool
  | Event.msgStartTracking _ => true
  | _ => false

theorem stopped_invariant (e : Event) (s : AppState)
    (hs : s.currentSession = none) (ht : s.isTracking = false)
    (he : isStartTrackingMsg e = false) :
    (step s e).1.currentSession = none ∧ (step s e).1.isTracking = false := by
  cases e with
  | msgStartTracking g => simp [isStartTrackingMsg] at he
  | msgStopTracking => exact ⟨rfl, rfl⟩
  | msgGetState => exact ⟨hs, ht⟩
  | tabUpdated now tabId c url => simp [step, ht, hs]
  | tabCreated now tabId url => simp [step, ht, hs]
  | tabActivated now tabId url => simp [step, ht, hs]
  | timerExpiry p now =>
    have h0 := timerFire_none s p now hs
    simp [step, h0, hs, ht]
  | apiResponse sid data => simp [step, analyzeResponse, hs, ht]

theorem stopped_run (evs : List Event) :
    ∀ s : AppState, s.currentSession = none → s.isTracking = false →
    (∀ e ∈ evs, isStartTrackingMsg e = false) →
    (runEvents s evs).currentSession = none ∧ (runEvents s evs).isTracking = false := by
  induction evs with
  | nil => intro s hs ht _; exact ⟨hs, ht⟩
  | cons e rest ih =>
    intro s hs ht hall
    have h1 := stopped_invariant e s hs ht (hall e (by simp))
    exact ih (step s e).1 h1.1 h1.2 (fun x hx => hall x (by simp [hx]))

/-- C9.  Processing `stopTracking` ends the current session immediately, and
as long as tracking is not restarted (so no new session can be started), a
previously scheduled but unfired capture is dropped at expiry — it never
reaches `takeScreenshot`, hence never produces a classification call. -/
theorem stopTrackingCancelsCapture :
    ∀ s : AppState,
      (stopTracking s).currentSession = none ∧
      (∀ (evs : List Event) (p : PendingCapture) (now : Nat),
        (∀ e ∈ evs, isStartTrackingMsg e = false) →
        (timerFire (runEvents (stopTracking s) evs) p now).2 = FireResult.dropped) := by
  intro s
  refine ⟨rfl, ?_⟩
  intro evs p now hall
  have h := stopped_run evs (stopTracking s) rfl rfl hall
  rw [timerFire_none _ p now h.1]

/-- C9, witness: stop tracking while a capture for session 5 is pending; the
expiry at 9999 is dropped. -/
theorem stopTrackingCancelsCapture_witness :
    (timerFire (runEvents (stopTracking liveState) [Event.msgGetState])
      { tabId := 1, url := urlA, scheduledSessionId := 5 } 9999).2 = FireResult.dropped :=
  (stopTrackingCancelsCapture liveState).2 [Event.msgGetState]
    { tabId := 1, url := urlA, scheduledSessionId := 5 } 9999 (by decide)

/-- Is an event one of the three browser tab events? -/
def isTabEvent : Event → Bool
  | Event.tabUpdated _ _ _ _ => true
  | Event.tabCreated _ _ _ => true
  | Event.tabActivated _ _ _ => true
  | _ => false

/-- C10.  While `isTracking` is false, the three tab listeners change no
state (session, throttle, tracking flag, goal and history all unchanged) and
emit no action — no capture scheduled, no feedback message sent. -/
theorem noTrackingNoEffect :
    ∀ (s : AppState) (e : Event), s.isTracking = false → isTabEvent e = true →
      step s e = (s, []) := by
  intro s e hs he
  cases e with
  | msgStartTracking g => simp [isTabEvent] at he
  | msgStopTracking => simp [isTabEvent] at he
  | msgGetState => simp [isTabEvent] at he
  | tabUpdated now tabId c url => simp [step, hs]
  | tabCreated now tabId url => simp [step, hs]
  | tabActivated now tabId url => simp [step, hs]
  | timerExpiry p now => simp [isTabEvent] at he
  | apiResponse sid data => simp [isTabEvent] at he

/-- C10, witness: a tab-created event in the initial (non-tracking) state is
a no-op. -/
theorem noTrackingNoEffect_witness :
    step initialState (Event.tabCreated 1 2 none) = (initialState, []) :=
  noTrackingNoEffect initialState (Event.tabCreated 1 2 none) rfl rfl

end NoHooting
